import Mathlib

/-!
Verification development for the Completion & Incentive Ledger of the
homeassistantChores repository (family-chores add-on, plus the homehero
schedule utility).

The embedding is a shallow one: the PostgreSQL store is a record of
association lists, each SQL statement of `src/models/Completion.js`
becomes an explicit state transformer on that record, and the model
functions (`create`, `updateBalance`, `undo`, `canUndo`, `getBalance`,
`getStreakData`, `updateStreak`) are translated query by query, in the
order the JavaScript awaits them.

Conventions:
- monetary amounts (DECIMAL(10,2) dollar values) are integers in cents;
- wall-clock instants are integer milliseconds since the Unix epoch
  (matching JavaScript `Date` arithmetic, which subtracts Dates in ms);
- calendar dates (DATE columns, `YYYY-MM-DD` strings) are integer epoch
  day numbers; `date.toISOString().split('T')[0]` therefore becomes
  floor division of the instant by the number of ms in a day (the UTC
  day), and a household-local day adds the local UTC offset first;
- row ids are naturals handed out by a `nextId` counter (SERIAL).
-/

namespace Chores

/-- One row of the `tasks` table, restricted to the columns the
Completion model reads: `dollar_value` (cents) and `name`. -/
structure Task where
  dollarValue : Int
  name : String
deriving DecidableEq

/-- One row of the `completions` table
(`id, task_id, user_id, completed_at, completion_date`). -/
structure CompletionRow where
  id : Nat
  taskId : Nat
  userId : Nat
  completedAt : Int
  completionDate : Int
deriving DecidableEq

/-- The `type` column of `balance_transactions`. -/
inductive TxnType
  | earned
  | adjustment
  | payout
deriving DecidableEq

/-- One row of the append-only `balance_transactions` table. -/
structure TxnRow where
  userId : Nat
  amount : Int
  type : TxnType
  description : String
deriving DecidableEq

/-- One row of the `streaks` table
(`current_count, best_count, last_completion_date`). -/
structure StreakRow where
  currentCount : Int
  bestCount : Int
  lastCompletionDate : Option Int
deriving DecidableEq

/-- The database state: `tasks`, `completions`, `balances` (user id to
cached `current_balance`), `balance_transactions`, `streaks` (keyed by
(user id, routine id)), and the SERIAL counter for completion ids. -/
structure DB where
  tasks : List (Nat × Task)
  completions : List CompletionRow
  balances : List (Nat × Int)
  txns : List TxnRow
  streaks : List ((Nat × Nat) × StreakRow)
  nextId : Nat
deriving DecidableEq

/-- Association-list lookup by key (first matching row, as a SQL
`SELECT ... WHERE key = $1 LIMIT 1` against a UNIQUE key). -/
def alookup {β : Type} (k : Nat) : List (Nat × β) → Option β
  | [] => none
  | p :: l => if p.1 = k then some p.2 else alookup k l

/-- Lookup in the `streaks` table by its UNIQUE (user_id, routine_id)
key. -/
def slookup (u r : Nat) : List ((Nat × Nat) × StreakRow) → Option StreakRow
  | [] => none
  | p :: l => if p.1 = (u, r) then some p.2 else slookup u r l

/-- `UNDO_WINDOW_MINUTES = 5`, expressed in milliseconds: the JavaScript
guard `(now - completedAt) / (1000 * 60) > 5` holds exactly when
`now - completedAt > 5 * 60 * 1000`. -/
def UNDO_WINDOW_MS : Int := 5 * 60 * 1000

/-- Milliseconds per calendar day. -/
def msPerDay : Int := 24 * 60 * 60 * 1000

/-- `date.toISOString().split('T')[0]` — the UTC calendar day of the
instant (floor division because `toISOString` renders the UTC date). -/
def deriveCompletionDate (tms : Int) : Int :=
  Int.fdiv tms msPerDay

/-- The calendar day of an instant in a clock that is `offMs`
milliseconds ahead of UTC (the household-local day). -/
def localCalendarDay (tms offMs : Int) : Int :=
  Int.fdiv (tms + offMs) msPerDay

/-- JavaScript `Date.prototype.getDay` in a clock `offMs` ms ahead of
UTC: weekday 0=Sunday … 6=Saturday (epoch day 0 was a Thursday). -/
def localWeekday (tms offMs : Int) : Int :=
  (localCalendarDay tms offMs + 4).emod 7

/-- A task as seen by homehero `isScheduledForDate`: `schedule` is the
JSONB array of weekday numbers; `none` stands for a missing/non-array
value. -/
structure HTask where
  schedule : Option (List Int)

/-- homehero `src/utils/schedule.js` `isScheduledForDate`: true when the
schedule is absent or empty, otherwise true iff the local weekday of the
date is contained in the schedule array. The date argument is the pair
(instant, local UTC offset). -/
def isScheduledForDate (task : HTask) (tms offMs : Int) : Bool :=
  match task.schedule with
  | none => true
  | some [] => true
  | some m => m.contains (localWeekday tms offMs)

/-- Whether a completion row for (task, user, completion date) already
exists — the condition under which the UNIQUE constraint of the
`completions` table fires. -/
def hasDup (t u : Nat) (d : Int) (s : DB) : Bool :=
  s.completions.any
    (fun c => decide (c.taskId = t ∧ c.userId = u ∧ c.completionDate = d))

/-- The `INSERT INTO completions (task_id, user_id, completion_date)`
statement of `Completion.create`. The table has
`UNIQUE(task_id, user_id, completion_date)`, so the insert raises a
unique violation (PostgreSQL 23505 — the spec's ConflictError) when a
matching row already exists; `completed_at` defaults to `NOW()`.
`newCompletion` is the row the INSERT produces (id from the SERIAL
counter, `completed_at` from the wall clock). -/
def newCompletion (t u : Nat) (d now : Int) (s : DB) : CompletionRow :=
  { id := s.nextId, taskId := t, userId := u
    completedAt := now, completionDate := d }

/-- The state after the completions INSERT succeeded: the new row is
appended and the SERIAL counter advances. -/
def insertedState (t u : Nat) (d now : Int) (s : DB) : DB :=
  { s with completions := s.completions ++ [newCompletion t u d now s]
           nextId := s.nextId + 1 }

def insertCompletionQuery (t u : Nat) (d now : Int) (s : DB) :
    Option (CompletionRow × DB) :=
  if hasDup t u d s then
    none
  else
    some (newCompletion t u d now s, insertedState t u d now s)

/-- `INSERT INTO balances (user_id, current_balance) VALUES ($1, 0)
ON CONFLICT (user_id) DO NOTHING`. -/
def ensureBalanceQuery (u : Nat) (s : DB) : DB :=
  if (alookup u s.balances).isSome then s
  else { s with balances := s.balances ++ [(u, 0)] }

/-- Pure list form of `UPDATE balances SET current_balance =
current_balance + $1 WHERE user_id = $2` (a no-op when no row matches). -/
def bupdate (u : Nat) (delta : Int) (l : List (Nat × Int)) :
    List (Nat × Int) :=
  l.map (fun p => if p.1 = u then (p.1, p.2 + delta) else p)

/-- The balance UPDATE as a state transformer. -/
def updateBalanceQuery (u : Nat) (delta : Int) (s : DB) : DB :=
  { s with balances := bupdate u delta s.balances }

/-- `INSERT INTO balance_transactions (user_id, amount, type,
description)`. -/
def insertTxnQuery (u : Nat) (a : Int) (ty : TxnType) (d : String)
    (s : DB) : DB :=
  { s with txns := s.txns ++ [{ userId := u, amount := a, type := ty
                                description := d }] }

/-- `Completion.updateBalance(taskId, userId)`: looks up the task's
dollar value and name, returns unchanged if the task is missing or the
value is ≤ 0, otherwise ensures the balance row, increments the cached
balance, and appends an `earned` transaction — three separate awaited
queries, in that order. -/
def updateBalance (t u : Nat) (s : DB) : DB :=
  match alookup t s.tasks with
  | none => s
  | some task =>
    if task.dollarValue ≤ 0 then s
    else
      insertTxnQuery u task.dollarValue .earned
        ("Completed: " ++ task.name)
        (updateBalanceQuery u task.dollarValue
          (ensureBalanceQuery u s))

/-- Errors surfaced by `Completion.create`: the store's unique-violation
on the completions key (the spec taxonomy's ConflictError). -/
inductive DbErr
  | conflict
deriving DecidableEq

/-- `Completion.create(taskId, userId, date)` with the completion date
already derived: inserts the completion row (propagating the unique
violation, in which case no later query runs), then awaits
`updateBalance`, and returns the formatted completion. -/
def create (t u : Nat) (d now : Int) (s : DB) :
    Except DbErr (CompletionRow × DB) :=
  match insertCompletionQuery t u d now s with
  | none => .error .conflict
  | some (c, s1) => .ok (c, updateBalance t u s1)

/-- `Completion.create(taskId, userId, dateObject)` for a `Date`
argument: the stored completion date is
`date.toISOString().split('T')[0]`, i.e. the UTC calendar day of the
instant. -/
def createAtInstant (t u : Nat) (tms : Int) (s : DB) :
    Except DbErr (CompletionRow × DB) :=
  create t u (deriveCompletionDate tms) tms s

/-- `Completion.findById`: `SELECT * FROM completions WHERE id = $1`. -/
def findById (id : Nat) (s : DB) : Option CompletionRow :=
  s.completions.find? (fun c => decide (c.id = id))

/-- `DELETE FROM completions WHERE id = $1`. -/
def deleteCompletionQuery (id : Nat) (s : DB) : DB :=
  { s with completions := s.completions.filter (fun c => decide (¬ c.id = id)) }

/-- The failure modes of `Completion.undo`: the two early returns
`{success:false, error:'Completion not found'}` (the spec taxonomy's
NotFoundError) and `{success:false, error:'Undo window expired …'}`
(ExpiredError). -/
inductive UndoErr
  | notFound
  | expired
deriving DecidableEq

/-- The credit-reversal block of `Completion.undo`: when the task row
exists and its dollar value is positive, the cached balance is
decremented and an offsetting `adjustment` transaction is appended;
otherwise the state is untouched. -/
def undoCredit (c : CompletionRow) (s : DB) : DB :=
  match alookup c.taskId s.tasks with
  | none => s
  | some task =>
    if task.dollarValue > 0 then
      insertTxnQuery c.userId (-task.dollarValue) .adjustment
        ("Undone: " ++ task.name)
        (updateBalanceQuery c.userId (-task.dollarValue) s)
    else s

/-- `Completion.undo(id)` at wall-clock `now`: not-found and
expired-window guards return with the state untouched; otherwise the
credit reversal runs and in every success case the completion row is
deleted. -/
def undo (id : Nat) (now : Int) (s : DB) : Except UndoErr Unit × DB :=
  match findById id s with
  | none => (.error .notFound, s)
  | some c =>
    if now - c.completedAt > UNDO_WINDOW_MS then (.error .expired, s)
    else (.ok (), deleteCompletionQuery id (undoCredit c s))

/-- `Completion.canUndo(id)` at wall-clock `now`: false when the
completion is absent, otherwise true iff the elapsed time is at most the
undo window. -/
def canUndo (id : Nat) (now : Int) (s : DB) : Bool :=
  match findById id s with
  | none => false
  | some c => decide (now - c.completedAt ≤ UNDO_WINDOW_MS)

/-- Whether an `Except` result is a success. -/
def isOk {ε α : Type} : Except ε α → Bool
  | .ok _ => true
  | .error _ => false

/-- `Completion.getBalance(userId)`: ensures the balance row exists,
then returns its cached value. -/
def getBalance (u : Nat) (s : DB) : Int × DB :=
  let s1 := ensureBalanceQuery u s
  ((alookup u s1.balances).getD 0, s1)

/-- `INSERT INTO streaks … VALUES ($1, $2, 0, 0) ON CONFLICT (user_id,
routine_id) DO NOTHING`. -/
def ensureStreakQuery (u r : Nat) (s : DB) : DB :=
  if (slookup u r s.streaks).isSome then s
  else { s with streaks := s.streaks ++
                  [((u, r), { currentCount := 0, bestCount := 0
                              lastCompletionDate := none })] }

/-- `Completion.getStreakData(userId, routineId)`: lazily creates the
zero row, then reads it. -/
def getStreakData (u r : Nat) (s : DB) : StreakRow × DB :=
  let s1 := ensureStreakQuery u r s
  ((slookup u r s1.streaks).getD
      { currentCount := 0, bestCount := 0, lastCompletionDate := none },
   s1)

/-- The new `current_count` computed by `Completion.updateStreak`:
`daysDiff = Math.floor((currentDate - lastDate) / msPerDay)` is the
exact day difference for calendar-day values; `=== 1` increments,
`=== 0` keeps the count, anything else (including a negative
difference) resets to 1, and a null `last_completion_date` gives 1. -/
def nextStreakCount (prior : StreakRow) (d : Int) : Int :=
  match prior.lastCompletionDate with
  | none => 1
  | some l =>
    if d - l = 1 then prior.currentCount + 1
    else if d - l = 0 then prior.currentCount
    else 1

/-- Pure list form of `UPDATE streaks SET current_count=$1,
best_count=$2, last_completion_date=$3 WHERE user_id=$4 AND
routine_id=$5`. -/
def supdate (u r : Nat) (row : StreakRow)
    (l : List ((Nat × Nat) × StreakRow)) :
    List ((Nat × Nat) × StreakRow) :=
  l.map (fun p => if p.1 = (u, r) then (p.1, row) else p)

/-- The streak UPDATE as a state transformer. -/
def updateStreakRowQuery (u r : Nat) (row : StreakRow) (s : DB) : DB :=
  { s with streaks := supdate u r row s.streaks }

/-- `Completion.updateStreak(userId, routineId, date)`: reads the prior
streak state through `getStreakData`, computes the new count, takes
`best = Math.max(newCount, bestCount)`, and writes the row back with
`last_completion_date = date`. -/
def updateStreak (u r : Nat) (d : Int) (s : DB) : StreakRow × DB :=
  let pr := getStreakData u r s
  let newCount := nextStreakCount pr.1 d
  let row : StreakRow :=
    { currentCount := newCount
      bestCount := max newCount pr.1.bestCount
      lastCompletionDate := some d }
  (row, updateStreakRowQuery u r row pr.2)

/-! ### Streak table lemmas -/

/-- Unfolding `slookup` over a cons cell. -/
theorem slookup_cons (u r : Nat) (p : (Nat × Nat) × StreakRow)
    (l : List ((Nat × Nat) × StreakRow)) :
    slookup u r (p :: l) =
      if p.1 = (u, r) then some p.2 else slookup u r l := rfl

/-- A lookup that misses the first list falls through an append. -/
theorem slookup_append_of_none (u r : Nat)
    (l1 l2 : List ((Nat × Nat) × StreakRow))
    (h : slookup u r l1 = none) :
    slookup u r (l1 ++ l2) = slookup u r l2 := by
  induction l1 with
  | nil => rfl
  | cons p l ih =>
    rw [List.cons_append, slookup_cons]
    rw [slookup_cons] at h
    by_cases hp : p.1 = (u, r)
    · simp [hp] at h
    · simp only [hp, if_false] at h ⊢
      exact ih h

/-- Looking up the key just written by the streak UPDATE: present keys
now map to the new row, absent keys stay absent. -/
theorem slookup_supdate (u r : Nat) (row : StreakRow)
    (l : List ((Nat × Nat) × StreakRow)) :
    slookup u r (supdate u r row l) =
      (slookup u r l).map (fun _ => row) := by
  induction l with
  | nil => rfl
  | cons p l ih =>
    by_cases hp : p.1 = (u, r)
    · simp [supdate, slookup_cons, hp]
    · simp only [supdate, List.map_cons] at ih ⊢
      rw [if_neg hp, slookup_cons, if_neg hp, slookup_cons, if_neg hp, ih]

/-- Writing the same streak row twice is the same as writing it once. -/
theorem supdate_idem (u r : Nat) (row : StreakRow)
    (l : List ((Nat × Nat) × StreakRow)) :
    supdate u r row (supdate u r row l) = supdate u r row l := by
  induction l with
  | nil => rfl
  | cons p l ih =>
    by_cases hp : p.1 = (u, r) <;>
      simp only [supdate, List.map_cons] at ih ⊢ <;>
      simp [hp, ih]

/-- The lazy streak INSERT is a no-op when the row exists. -/
theorem ensureStreak_of_isSome (u r : Nat) (s : DB)
    (h : (slookup u r s.streaks).isSome) :
    ensureStreakQuery u r s = s := by
  simp [ensureStreakQuery, h]

/-- After the lazy streak INSERT the row exists. -/
theorem slookup_ensure_isSome (u r : Nat) (s : DB) :
    (slookup u r (ensureStreakQuery u r s).streaks).isSome := by
  unfold ensureStreakQuery
  cases hs : slookup u r s.streaks with
  | some v => simp [hs]
  | none =>
    simp only [hs, Option.isSome_none, Bool.false_eq_true, if_false]
    rw [slookup_append_of_none u r _ _ hs, slookup_cons]
    simp

/-- `getStreakData` on an existing row reads it and leaves the state
unchanged. -/
theorem getStreakData_of_some (u r : Nat) (s : DB) (v : StreakRow)
    (h : slookup u r s.streaks = some v) :
    getStreakData u r s = (v, s) := by
  unfold getStreakData
  rw [ensureStreak_of_isSome u r s (by simp [h])]
  simp [h]

/-- The row returned by `updateStreak`, unfolded. -/
theorem updateStreak_fst (u r : Nat) (d : Int) (s : DB) :
    (updateStreak u r d s).1 =
      { currentCount := nextStreakCount (getStreakData u r s).1 d
        bestCount := max (nextStreakCount (getStreakData u r s).1 d)
          (getStreakData u r s).1.bestCount
        lastCompletionDate := some d } := rfl

/-- The state returned by `updateStreak`, unfolded. -/
theorem updateStreak_snd (u r : Nat) (d : Int) (s : DB) :
    (updateStreak u r d s).2 =
      updateStreakRowQuery u r (updateStreak u r d s).1
        (getStreakData u r s).2 := rfl

/-- The state component of `getStreakData` is the lazy INSERT. -/
theorem getStreakData_snd (u r : Nat) (s : DB) :
    (getStreakData u r s).2 = ensureStreakQuery u r s := rfl

/-- Claim C4: the streak transition rule of `Completion.updateStreak`.
Given the prior streak state `(cur, best, last)` that `getStreakData`
reads (the stored row, or `(0, 0, null)` lazily created), the updated
row has `current = 1` when `last` is null, `current = cur + 1` when the
date is exactly one day after `last`, `current = cur` when the date
equals `last`, and `current = 1` in every other case (gap greater than
one day or an earlier date); `best` becomes `max(current, best)` and
`last_completion_date` becomes the given date, and exactly this row is
stored for the (user, routine) key. -/
theorem C4_streak_transition (s : DB) (u r : Nat) (d cur best : Int)
    (last : Option Int)
    (h : (getStreakData u r s).1 =
      { currentCount := cur, bestCount := best,
        lastCompletionDate := last }) :
    (last = none → (updateStreak u r d s).1.currentCount = 1) ∧
    (∀ l, last = some l → d - l = 1 →
      (updateStreak u r d s).1.currentCount = cur + 1) ∧
    (∀ l, last = some l → d = l →
      (updateStreak u r d s).1.currentCount = cur) ∧
    (∀ l, last = some l → d - l ≠ 1 → d ≠ l →
      (updateStreak u r d s).1.currentCount = 1) ∧
    (updateStreak u r d s).1.bestCount =
      max (updateStreak u r d s).1.currentCount best ∧
    (updateStreak u r d s).1.lastCompletionDate = some d ∧
    slookup u r (updateStreak u r d s).2.streaks =
      some (updateStreak u r d s).1 := by
  have hrow := updateStreak_fst u r d s
  rw [h] at hrow
  refine ⟨?_, ?_, ?_, ?_, ?_, ?_, ?_⟩
  · intro hl
    rw [hrow]
    simp [nextStreakCount, hl]
  · intro l hl hd
    rw [hrow]
    simp [nextStreakCount, hl, hd]
  · intro l hl hd
    rw [hrow]
    have hz : d - l = 0 := by omega
    simp [nextStreakCount, hl, hz]
  · intro l hl hd hne
    rw [hrow]
    have hz : d - l ≠ 0 := by omega
    simp [nextStreakCount, hl, hd, hz]
  · rw [hrow]
  · rw [hrow]
  · rw [updateStreak_snd]
    show slookup u r
      (supdate u r (updateStreak u r d s).1
        (getStreakData u r s).2.streaks) = _
    rw [slookup_supdate]
    rw [getStreakData_snd]
    cases hs : slookup u r (ensureStreakQuery u r s).streaks with
    | some v => rfl
    | none =>
      have := slookup_ensure_isSome u r s
      rw [hs] at this
      simp at this

/-- Closed witness for C4: a concrete prior state `(2, 3, day 10)`
updated on day 11 increments to 3, raises best to 3, and stores the
row. -/
theorem C4_streak_transition_witness :
    (updateStreak 1 2 11
      { tasks := [], completions := [], balances := [], txns := []
        streaks := [((1, 2),
          { currentCount := 2, bestCount := 3
            lastCompletionDate := some 10 })]
        nextId := 0 }).1.currentCount = 2 + 1 :=
  ((C4_streak_transition _ 1 2 11 2 3 (some 10)
      (by decide)).2.1 10 rfl (by decide))

/-- Claim C9: same-day idempotence of the streak update. Applying
`Completion.updateStreak` for the same (user, routine, date) twice in
succession returns the same row and the same database state as applying
it once: the second application sees `last_completion_date = date`,
takes the `daysDiff === 0` branch, and rewrites the identical row. -/
theorem C9_updateStreak_idempotent (s : DB) (u r : Nat) (d : Int) :
    updateStreak u r d (updateStreak u r d s).2 = updateStreak u r d s := by
  have hlook : slookup u r (updateStreak u r d s).2.streaks =
      some (updateStreak u r d s).1 := by
    rw [updateStreak_snd]
    show slookup u r
      (supdate u r (updateStreak u r d s).1
        (getStreakData u r s).2.streaks) = _
    rw [slookup_supdate, getStreakData_snd]
    cases hs : slookup u r (ensureStreakQuery u r s).streaks with
    | some v => rfl
    | none =>
      have := slookup_ensure_isSome u r s
      rw [hs] at this
      simp at this
  have hget := getStreakData_of_some u r (updateStreak u r d s).2
    (updateStreak u r d s).1 hlook
  have hcnt : nextStreakCount (updateStreak u r d s).1 d =
      (updateStreak u r d s).1.currentCount := by
    rw [updateStreak_fst]
    simp [nextStreakCount]
  have hrow2 : (updateStreak u r d (updateStreak u r d s).2).1 =
      (updateStreak u r d s).1 := by
    rw [updateStreak_fst u r d (updateStreak u r d s).2, hget]
    simp only [hcnt]
    rw [updateStreak_fst u r d s]
    simp [max_assoc, max_self]
  have hstate : (updateStreak u r d (updateStreak u r d s).2).2 =
      (updateStreak u r d s).2 := by
    rw [updateStreak_snd u r d (updateStreak u r d s).2, hget, hrow2]
    show updateStreakRowQuery u r (updateStreak u r d s).1
      (updateStreak u r d s).2 = _
    rw [updateStreak_snd u r d s]
    show { updateStreakRowQuery u r (updateStreak u r d s).1
            (getStreakData u r s).2 with
           streaks := supdate u r (updateStreak u r d s).1
             (supdate u r (updateStreak u r d s).1
               (getStreakData u r s).2.streaks) } = _
    rw [supdate_idem]
    rfl
  exact Prod.ext hrow2 hstate

/-! ### Undo guards, canUndo agreement, schedule evaluation -/

/-- Claim C6: both failure modes of `Completion.undo` leave the whole
database untouched. A missing completion id fails with the not-found
error, and an elapsed time strictly greater than 5 minutes fails with
the expired error; in both cases the returned state is the input state,
so completions, balances and the transaction log are unchanged. -/
theorem C6_undo_failures (s : DB) (id : Nat) (now : Int) :
    (findById id s = none → undo id now s = (.error .notFound, s)) ∧
    (∀ c, findById id s = some c →
      now - c.completedAt > UNDO_WINDOW_MS →
      undo id now s = (.error .expired, s)) := by
  constructor
  · intro h
    unfold undo
    rw [h]
  · intro c h hage
    unfold undo
    rw [h]
    simp only [if_pos hage]

/-- A one-completion database used by concrete witnesses: task 1 is
worth 200 cents, user 7 completed it at instant 0 on day 0 and the row
has id 1. -/
def sampleDB : DB :=
  { tasks := [(1, { dollarValue := 200, name := "Dishes" })]
    completions := [{ id := 1, taskId := 1, userId := 7
                      completedAt := 0, completionDate := 0 }]
    balances := [(7, 200)]
    txns := [{ userId := 7, amount := 200, type := .earned
               description := "Completed: Dishes" }]
    streaks := []
    nextId := 2 }

/-- Closed witness for C6: in `sampleDB`, undoing the missing id 9
fails not-found with the state returned unchanged, and undoing id 1
at 301000 ms (5 minutes and 1 second later) fails expired with the
state returned unchanged. -/
theorem C6_undo_failures_witness :
    undo 9 0 sampleDB = (.error .notFound, sampleDB) ∧
    undo 1 301000 sampleDB = (.error .expired, sampleDB) :=
  ⟨(C6_undo_failures sampleDB 9 0).1 (by decide),
   (C6_undo_failures sampleDB 1 301000).2
     { id := 1, taskId := 1, userId := 7, completedAt := 0
       completionDate := 0 } (by decide) (by decide)⟩

/-- Claim C10: `Completion.canUndo` agrees with the guards of
`Completion.undo` evaluated at the same wall-clock instant: it equals
the success of `undo`, it is false when the completion does not exist,
and for an existing completion it is true exactly when the elapsed time
is at most 5 minutes (so the boundary of exactly 5 minutes is undoable
in both). -/
theorem C10_canUndo_agrees_with_undo (s : DB) (id : Nat) (now : Int) :
    canUndo id now s = isOk (undo id now s).1 ∧
    (findById id s = none → canUndo id now s = false) ∧
    (∀ c, findById id s = some c →
      (canUndo id now s = true ↔
        now - c.completedAt ≤ UNDO_WINDOW_MS)) := by
  refine ⟨?_, ?_, ?_⟩
  · unfold canUndo undo
    cases h : findById id s with
    | none => rfl
    | some c =>
      by_cases hage : now - c.completedAt > UNDO_WINDOW_MS
      · simp only [if_pos hage]
        show decide _ = isOk (Except.error UndoErr.expired)
        simp only [isOk, decide_eq_false_iff_not]
        omega
      · simp only [if_neg hage]
        show decide _ = isOk (Except.ok ())
        simp only [isOk, decide_eq_true_eq]
        omega
  · intro h
    unfold canUndo
    rw [h]
  · intro c h
    unfold canUndo
    rw [h]
    simp

/-- Closed witness for C10: in `sampleDB` at exactly the 5-minute
boundary (300000 ms), the completion with id 1 is undoable, and the
missing id 9 is not. -/
theorem C10_canUndo_agrees_with_undo_witness :
    canUndo 1 300000 sampleDB = true ∧
    canUndo 9 300000 sampleDB = false :=
  ⟨((C10_canUndo_agrees_with_undo sampleDB 1 300000).2.2
      { id := 1, taskId := 1, userId := 7, completedAt := 0
        completionDate := 0 } (by decide)).mpr (by decide),
   (C10_canUndo_agrees_with_undo sampleDB 9 300000).2.1 (by decide)⟩

/-- Claim C8: homehero `isScheduledForDate` returns true unconditionally
when the task's schedule mask is absent or empty, and otherwise returns
true exactly when the weekday of the date (0=Sunday … 6=Saturday,
computed from the household-local clock) is a member of the mask. The
function is a pure Lean function of its arguments, hence side-effect
free. -/
theorem C8_isScheduledForDate_spec (task : HTask) (tms offMs : Int) :
    ((task.schedule = none ∨ task.schedule = some []) →
      isScheduledForDate task tms offMs = true) ∧
    (∀ m, task.schedule = some m → m ≠ [] →
      (isScheduledForDate task tms offMs = true ↔
        localWeekday tms offMs ∈ m)) := by
  constructor
  · rintro (h | h) <;> simp [isScheduledForDate, h]
  · intro m hm hne
    cases m with
    | nil => exact absurd rfl hne
    | cons a l =>
      simp [isScheduledForDate, hm, List.contains, List.elem_iff]

/-- Closed witness for C8: with the spec's Monday/Wednesday/Friday mask
`[1, 3, 5]`, epoch day 4 (Monday 1970-01-05, UTC clock) is scheduled
and an absent mask is always scheduled. -/
theorem C8_isScheduledForDate_witness :
    isScheduledForDate { schedule := some [1, 3, 5] }
      (4 * 86400000) 0 = true ∧
    isScheduledForDate { schedule := none } (4 * 86400000) 0 = true :=
  ⟨((C8_isScheduledForDate_spec { schedule := some [1, 3, 5] }
      (4 * 86400000) 0).2 [1, 3, 5] rfl (by decide)).mpr (by decide),
   (C8_isScheduledForDate_spec { schedule := none }
      (4 * 86400000) 0).1 (Or.inl rfl)⟩

/-! ### Balance table lemmas -/

/-- Unfolding `alookup` over a cons cell. -/
theorem alookup_cons {β : Type} (k : Nat) (p : Nat × β)
    (l : List (Nat × β)) :
    alookup k (p :: l) = if p.1 = k then some p.2 else alookup k l := rfl

/-- A lookup that misses the first list falls through an append. -/
theorem alookup_append_of_none {β : Type} (k : Nat)
    (l1 l2 : List (Nat × β)) (h : alookup k l1 = none) :
    alookup k (l1 ++ l2) = alookup k l2 := by
  induction l1 with
  | nil => rfl
  | cons p l ih =>
    rw [List.cons_append, alookup_cons]
    rw [alookup_cons] at h
    by_cases hp : p.1 = k
    · simp [hp] at h
    · simp only [hp, if_false] at h ⊢
      exact ih h

/-- A lookup that hits the first list is unaffected by an append. -/
theorem alookup_append_of_some {β : Type} (k : Nat)
    (l1 l2 : List (Nat × β)) (b : β) (h : alookup k l1 = some b) :
    alookup k (l1 ++ l2) = some b := by
  induction l1 with
  | nil => simp [alookup] at h
  | cons p l ih =>
    rw [List.cons_append, alookup_cons]
    rw [alookup_cons] at h
    by_cases hp : p.1 = k
    · simpa [hp] using h
    · simp only [hp, if_false] at h ⊢
      exact ih h

/-- Looking up after the balance UPDATE: the touched key is shifted by
the delta when present (and stays absent when absent), other keys are
untouched. -/
theorem alookup_bupdate (u v : Nat) (delta : Int) (l : List (Nat × Int)) :
    alookup v (bupdate u delta l) =
      if v = u then (alookup v l).map (· + delta) else alookup v l := by
  induction l with
  | nil => by_cases hv : v = u <;> simp [bupdate, alookup, hv]
  | cons p l ih =>
    by_cases hv : v = u
    · subst hv
      by_cases hp : p.1 = v
      · simp [bupdate, alookup_cons, hp]
      · simp only [bupdate, List.map_cons, if_neg hp, alookup_cons,
          hp, if_false, if_pos rfl] at ih ⊢
        simpa using ih
    · by_cases hp : p.1 = u
      · rw [if_neg hv]
        simp only [bupdate, List.map_cons, if_pos hp, alookup_cons]
        have hpv : ¬ p.1 = v := by
          rw [hp]
          exact fun hh => hv hh.symm
        rw [if_neg hpv, if_neg hpv]
        simpa [if_neg hv] using ih
      · rw [if_neg hv]
        simp only [bupdate, List.map_cons, if_neg hp, alookup_cons]
        by_cases hpv : p.1 = v
        · rw [if_pos hpv, if_pos hpv]
        · rw [if_neg hpv, if_neg hpv]
          simpa [if_neg hv] using ih

/-- Looking up after the balance ensure-INSERT: the ensured key now maps
to its old value (0 when it was absent), other keys are untouched. -/
theorem alookup_ensure (u v : Nat) (s : DB) :
    alookup v (ensureBalanceQuery u s).balances =
      if v = u then some ((alookup u s.balances).getD 0)
      else alookup v s.balances := by
  unfold ensureBalanceQuery
  by_cases hv : v = u
  · subst hv
    cases hu : alookup v s.balances with
    | some b => simp [hu]
    | none =>
      simp only [hu, Option.isSome_none, Bool.false_eq_true, if_false,
        if_pos rfl, Option.getD_none]
      rw [alookup_append_of_none v _ _ hu, alookup_cons]
      simp
  · cases hu : alookup u s.balances with
    | some b => simp [hu, hv]
    | none =>
      simp only [hu, Option.isSome_none, Bool.false_eq_true, if_false,
        if_neg hv]
      cases hv2 : alookup v s.balances with
      | some b => exact alookup_append_of_some v _ _ b hv2
      | none =>
        rw [alookup_append_of_none v _ _ hv2, alookup_cons,
          if_neg (Ne.symm hv)]
        rfl

/-- The cached balance read (`current_balance`, defaulting to 0 when the
row is absent, as `parseFloat(...) || 0` does). -/
def balVal (u : Nat) (s : DB) : Int := (alookup u s.balances).getD 0

/-- The sum of `balance_transactions.amount` over a user's rows. -/
def txnSumL (u : Nat) (l : List TxnRow) : Int :=
  ((l.filter (fun tx => decide (tx.userId = u))).map
    (fun tx => tx.amount)).sum

/-- The reconciliation sum for a user over the whole state. -/
def txnSum (u : Nat) (s : DB) : Int := txnSumL u s.txns

theorem txnSumL_append (u : Nat) (l1 l2 : List TxnRow) :
    txnSumL u (l1 ++ l2) = txnSumL u l1 + txnSumL u l2 := by
  simp [txnSumL, List.filter_append]

theorem txnSumL_single (u : Nat) (tx : TxnRow) :
    txnSumL u [tx] = if tx.userId = u then tx.amount else 0 := by
  by_cases h : tx.userId = u <;> simp [txnSumL, h]

/-! ### Projection lemmas: which fields each query leaves unchanged -/

@[simp] theorem ensureBalance_txns (u : Nat) (s : DB) :
    (ensureBalanceQuery u s).txns = s.txns := by
  unfold ensureBalanceQuery
  split <;> rfl

@[simp] theorem ensureBalance_completions (u : Nat) (s : DB) :
    (ensureBalanceQuery u s).completions = s.completions := by
  unfold ensureBalanceQuery
  split <;> rfl

@[simp] theorem ensureBalance_tasks (u : Nat) (s : DB) :
    (ensureBalanceQuery u s).tasks = s.tasks := by
  unfold ensureBalanceQuery
  split <;> rfl

@[simp] theorem ensureBalance_streaks (u : Nat) (s : DB) :
    (ensureBalanceQuery u s).streaks = s.streaks := by
  unfold ensureBalanceQuery
  split <;> rfl

@[simp] theorem ensureBalance_nextId (u : Nat) (s : DB) :
    (ensureBalanceQuery u s).nextId = s.nextId := by
  unfold ensureBalanceQuery
  split <;> rfl

@[simp] theorem updateBalanceQuery_txns (u : Nat) (d : Int) (s : DB) :
    (updateBalanceQuery u d s).txns = s.txns := rfl

@[simp] theorem updateBalanceQuery_completions (u : Nat) (d : Int)
    (s : DB) : (updateBalanceQuery u d s).completions = s.completions :=
  rfl

@[simp] theorem updateBalanceQuery_tasks (u : Nat) (d : Int) (s : DB) :
    (updateBalanceQuery u d s).tasks = s.tasks := rfl

@[simp] theorem updateBalanceQuery_streaks (u : Nat) (d : Int) (s : DB) :
    (updateBalanceQuery u d s).streaks = s.streaks := rfl

@[simp] theorem updateBalanceQuery_nextId (u : Nat) (d : Int) (s : DB) :
    (updateBalanceQuery u d s).nextId = s.nextId := rfl

@[simp] theorem updateBalanceQuery_balances (u : Nat) (d : Int)
    (s : DB) : (updateBalanceQuery u d s).balances =
      bupdate u d s.balances := rfl

@[simp] theorem insertTxn_balances (u : Nat) (a : Int) (ty : TxnType)
    (dsc : String) (s : DB) :
    (insertTxnQuery u a ty dsc s).balances = s.balances := rfl

@[simp] theorem insertTxn_completions (u : Nat) (a : Int) (ty : TxnType)
    (dsc : String) (s : DB) :
    (insertTxnQuery u a ty dsc s).completions = s.completions := rfl

@[simp] theorem insertTxn_tasks (u : Nat) (a : Int) (ty : TxnType)
    (dsc : String) (s : DB) :
    (insertTxnQuery u a ty dsc s).tasks = s.tasks := rfl

@[simp] theorem insertTxn_streaks (u : Nat) (a : Int) (ty : TxnType)
    (dsc : String) (s : DB) :
    (insertTxnQuery u a ty dsc s).streaks = s.streaks := rfl

@[simp] theorem insertTxn_nextId (u : Nat) (a : Int) (ty : TxnType)
    (dsc : String) (s : DB) :
    (insertTxnQuery u a ty dsc s).nextId = s.nextId := rfl

@[simp] theorem insertTxn_txns (u : Nat) (a : Int) (ty : TxnType)
    (dsc : String) (s : DB) :
    (insertTxnQuery u a ty dsc s).txns =
      s.txns ++ [{ userId := u, amount := a, type := ty
                   description := dsc }] := rfl

@[simp] theorem deleteCompletion_balances (id : Nat) (s : DB) :
    (deleteCompletionQuery id s).balances = s.balances := rfl

@[simp] theorem deleteCompletion_txns (id : Nat) (s : DB) :
    (deleteCompletionQuery id s).txns = s.txns := rfl

@[simp] theorem deleteCompletion_tasks (id : Nat) (s : DB) :
    (deleteCompletionQuery id s).tasks = s.tasks := rfl

@[simp] theorem deleteCompletion_streaks (id : Nat) (s : DB) :
    (deleteCompletionQuery id s).streaks = s.streaks := rfl

@[simp] theorem deleteCompletion_completions (id : Nat) (s : DB) :
    (deleteCompletionQuery id s).completions =
      s.completions.filter (fun c => decide (¬ c.id = id)) := rfl

/-! ### `updateBalance` characterizations -/

/-- `updateBalance` is the identity when the task row is missing. -/
theorem updateBalance_of_no_task (t u : Nat) (s : DB)
    (ht : alookup t s.tasks = none) : updateBalance t u s = s := by
  unfold updateBalance
  rw [ht]

/-- `updateBalance` is the identity when the dollar value is ≤ 0. -/
theorem updateBalance_of_nonpos (t u : Nat) (s : DB) (task : Task)
    (ht : alookup t s.tasks = some task) (hv : task.dollarValue ≤ 0) :
    updateBalance t u s = s := by
  unfold updateBalance
  rw [ht]
  show (if task.dollarValue ≤ 0 then s
    else insertTxnQuery u task.dollarValue .earned
      ("Completed: " ++ task.name)
      (updateBalanceQuery u task.dollarValue
        (ensureBalanceQuery u s))) = s
  rw [if_pos hv]

/-- `updateBalance` on a positively valued task is the ensure / UPDATE /
INSERT-transaction chain. -/
theorem updateBalance_of_task (t u : Nat) (s : DB) (task : Task)
    (ht : alookup t s.tasks = some task) (hv : 0 < task.dollarValue) :
    updateBalance t u s =
      insertTxnQuery u task.dollarValue .earned
        ("Completed: " ++ task.name)
        (updateBalanceQuery u task.dollarValue
          (ensureBalanceQuery u s)) := by
  unfold updateBalance
  rw [ht]
  show (if task.dollarValue ≤ 0 then s
    else insertTxnQuery u task.dollarValue .earned
      ("Completed: " ++ task.name)
      (updateBalanceQuery u task.dollarValue
        (ensureBalanceQuery u s))) = _
  rw [if_neg (by omega)]

@[simp] theorem updateBalance_tasks (t u : Nat) (s : DB) :
    (updateBalance t u s).tasks = s.tasks := by
  unfold updateBalance
  cases alookup t s.tasks with
  | none => rfl
  | some task =>
    by_cases hv : task.dollarValue ≤ 0 <;> simp [hv]

@[simp] theorem updateBalance_completions (t u : Nat) (s : DB) :
    (updateBalance t u s).completions = s.completions := by
  unfold updateBalance
  cases alookup t s.tasks with
  | none => rfl
  | some task =>
    by_cases hv : task.dollarValue ≤ 0 <;> simp [hv]

@[simp] theorem updateBalance_streaks (t u : Nat) (s : DB) :
    (updateBalance t u s).streaks = s.streaks := by
  unfold updateBalance
  cases alookup t s.tasks with
  | none => rfl
  | some task =>
    by_cases hv : task.dollarValue ≤ 0 <;> simp [hv]

@[simp] theorem updateBalance_nextId (t u : Nat) (s : DB) :
    (updateBalance t u s).nextId = s.nextId := by
  unfold updateBalance
  cases alookup t s.tasks with
  | none => rfl
  | some task =>
    by_cases hv : task.dollarValue ≤ 0 <;> simp [hv]

/-- After a credit on a positively valued task the user's cached balance
has grown by the dollar value and the balance row surely exists. -/
theorem updateBalance_balVal_self (t u : Nat) (s : DB) (task : Task)
    (ht : alookup t s.tasks = some task) (hv : 0 < task.dollarValue) :
    balVal u (updateBalance t u s) = balVal u s + task.dollarValue ∧
    (alookup u (updateBalance t u s).balances).isSome := by
  rw [updateBalance_of_task t u s task ht hv]
  constructor
  · show ((alookup u (bupdate u task.dollarValue
      (ensureBalanceQuery u s).balances)).getD 0) = _
    rw [alookup_bupdate, if_pos rfl, alookup_ensure, if_pos rfl]
    simp [balVal]
  · show (alookup u (bupdate u task.dollarValue
      (ensureBalanceQuery u s).balances)).isSome
    rw [alookup_bupdate, if_pos rfl, alookup_ensure, if_pos rfl]
    simp

/-! ### `create` characterizations -/

/-- `create` on a duplicate (task, user, date) propagates the unique
violation and runs no further query. -/
theorem create_of_dup (t u : Nat) (d now : Int) (s : DB)
    (h : hasDup t u d s = true) :
    create t u d now s = .error .conflict := by
  unfold create insertCompletionQuery
  rw [if_pos h]

/-- `create` on a fresh (task, user, date) inserts the row with the next
SERIAL id and then awaits `updateBalance` on the grown state. -/
theorem create_of_nodup (t u : Nat) (d now : Int) (s : DB)
    (h : hasDup t u d s = false) :
    create t u d now s =
      .ok (newCompletion t u d now s,
        updateBalance t u (insertedState t u d now s)) := by
  unfold create insertCompletionQuery
  rw [if_neg (by simp [h])]

/-! ### Claims C3, C1 and C7 -/

/-- How many completions a (task, user, date) triple has persisted. -/
def countCompl (t u : Nat) (d : Int) (s : DB) : Nat :=
  (s.completions.filter
    (fun c =>
      decide (c.taskId = t ∧ c.userId = u ∧ c.completionDate = d))).length

/-- The UNIQUE guard fires exactly when the triple already has a row. -/
theorem hasDup_false_iff (t u : Nat) (d : Int) (s : DB) :
    hasDup t u d s = false ↔ countCompl t u d s = 0 := by
  simp [hasDup, countCompl, List.any_eq_false, List.length_eq_zero,
    List.filter_eq_nil_iff]

/-- Claim C3: duplicate-completion idempotency guard. Starting from a
state with no completion for (task, user, date), the first
`Completion.create` succeeds, exactly one completion for the triple is
persisted, and a second `create` for the same triple fails with the
unique-violation (ConflictError) of the `UNIQUE(task_id, user_id,
completion_date)` constraint, before any further query runs — so the
state the caller holds still has exactly that one completion. -/
theorem C3_duplicate_create_conflicts (s : DB) (t u : Nat)
    (d now1 now2 : Int) (h : countCompl t u d s = 0) :
    ∃ c1 s1, create t u d now1 s = .ok (c1, s1) ∧
      countCompl t u d s1 = 1 ∧
      create t u d now2 s1 = .error .conflict := by
  have hdup : hasDup t u d s = false := (hasDup_false_iff t u d s).mpr h
  have hfil : s.completions.filter
      (fun c =>
        decide (c.taskId = t ∧ c.userId = u ∧ c.completionDate = d)) =
        [] := by
    exact List.length_eq_zero.mp h
  refine ⟨newCompletion t u d now1 s,
    updateBalance t u (insertedState t u d now1 s),
    create_of_nodup t u d now1 s hdup, ?_, ?_⟩
  · unfold countCompl
    rw [updateBalance_completions]
    show (List.filter _
      (s.completions ++ [newCompletion t u d now1 s])).length = 1
    rw [List.filter_append, hfil]
    simp [newCompletion]
  · apply create_of_dup
    unfold hasDup
    rw [updateBalance_completions]
    show (s.completions ++ [newCompletion t u d now1 s]).any _ = true
    rw [List.any_append]
    simp [newCompletion]

/-- Closed witness for C3: task 1 (worth 200) completed by user 7 on
day 30 in a fresh database; the duplicate attempt conflicts. -/
theorem C3_duplicate_create_conflicts_witness :
    ∃ c1 s1, create 1 7 30 0
        { tasks := [(1, { dollarValue := 200, name := "Trash" })]
          completions := [], balances := [], txns := [], streaks := []
          nextId := 0 } = .ok (c1, s1) ∧
      countCompl 1 7 30 s1 = 1 ∧
      create 1 7 30 99 s1 = .error .conflict :=
  C3_duplicate_create_conflicts _ 1 7 30 0 99 (by decide)

/-- The sequence of database states passed through by a run of
`Completion.create`: the initial state, the state after the completions
INSERT, and — when the task exists with a positive dollar value — the
states after each of the three queries of `updateBalance` (ensure
balance row, increment cached balance, append `earned` transaction).
Since the JavaScript awaits these queries one at a time with no
enclosing transaction, a failure may interrupt the run after any
element of this list, leaving that state persisted. -/
def createRunStates (t u : Nat) (d now : Int) (s : DB) : List DB :=
  match insertCompletionQuery t u d now s with
  | none => [s]
  | some (_, s1) =>
    match alookup t s1.tasks with
    | none => [s, s1]
    | some task =>
      if task.dollarValue ≤ 0 then [s, s1]
      else
        [s, s1,
         ensureBalanceQuery u s1,
         updateBalanceQuery u task.dollarValue (ensureBalanceQuery u s1),
         insertTxnQuery u task.dollarValue .earned
           ("Completed: " ++ task.name)
           (updateBalanceQuery u task.dollarValue
             (ensureBalanceQuery u s1))]

/-- A fresh database with one task worth 200 cents. -/
def c1InitDB : DB :=
  { tasks := [(1, { dollarValue := 200, name := "Trash" })]
    completions := [], balances := [], txns := [], streaks := []
    nextId := 0 }

/-- The state right after the completions INSERT of
`create(task 1, user 7, day 30)` in `c1InitDB`, before any balance
query has run. -/
def c1MidDB : DB :=
  { tasks := [(1, { dollarValue := 200, name := "Trash" })]
    completions := [{ id := 0, taskId := 1, userId := 7
                      completedAt := 0, completionDate := 30 }]
    balances := [], txns := [], streaks := []
    nextId := 1 }

/-- Counterexample to claim C1 as stated: `Completion.create` performs
the completion INSERT and the balance credit as separate sequential
awaited queries with no shared transaction, so the intermediate state
`c1MidDB` — reached when a failure interrupts the run right after the
INSERT — is a reachable state that contains the completion for
(task 1, user 7, day 30) while the transaction log is empty and user 7
has no balance row: a completion without its credit. -/
theorem C1_counterexample :
    c1MidDB ∈ createRunStates 1 7 30 0 c1InitDB ∧
    hasDup 1 7 30 c1MidDB = true ∧
    c1MidDB.txns = [] ∧
    alookup 7 c1MidDB.balances = none := by decide

/-- Claim C1 as amended: when a run of `Completion.create` on a task
with positive monetary value completes without failure, both effects
are persisted — the new completion row is in the table and exactly one
matching `earned` transaction is appended with the cached balance
incremented by the task's value. (The unamended claim also asserted
that no reachable state holds one effect without the other; the
separate sequential writes make that false, per the counterexample.) -/
theorem C1_create_effects_when_complete (s : DB) (t u : Nat)
    (d now : Int) (task : Task)
    (ht : alookup t s.tasks = some task) (hv : 0 < task.dollarValue)
    (hnodup : hasDup t u d s = false) :
    ∃ c1 s1, create t u d now s = .ok (c1, s1) ∧
      c1.taskId = t ∧ c1.userId = u ∧ c1.completionDate = d ∧
      c1 ∈ s1.completions ∧
      s1.txns = s.txns ++
        [{ userId := u, amount := task.dollarValue, type := .earned
           description := "Completed: " ++ task.name }] ∧
      balVal u s1 = balVal u s + task.dollarValue := by
  have htI : alookup t (insertedState t u d now s).tasks = some task := ht
  refine ⟨newCompletion t u d now s,
    updateBalance t u (insertedState t u d now s),
    create_of_nodup t u d now s hnodup, rfl, rfl, rfl, ?_, ?_, ?_⟩
  · rw [updateBalance_completions]
    show newCompletion t u d now s ∈
      s.completions ++ [newCompletion t u d now s]
    simp
  · rw [updateBalance_of_task t u _ task htI hv]
    simp
    rfl
  · have hb := (updateBalance_balVal_self t u
      (insertedState t u d now s) task htI hv).1
    rw [hb]
    rfl

/-- Closed witness for the amended C1: the full run in `c1InitDB`
persists both the completion and the 200-cent credit. -/
theorem C1_create_effects_when_complete_witness :
    ∃ c1 s1, create 1 7 30 0 c1InitDB = .ok (c1, s1) ∧
      c1.taskId = 1 ∧ c1.userId = 7 ∧ c1.completionDate = 30 ∧
      c1 ∈ s1.completions ∧
      s1.txns = c1InitDB.txns ++
        [{ userId := 7, amount := 200, type := .earned
           description := "Completed: " ++ "Trash" }] ∧
      balVal 7 s1 = balVal 7 c1InitDB + 200 :=
  C1_create_effects_when_complete c1InitDB 1 7 30 0
    { dollarValue := 200, name := "Trash" } (by decide) (by decide)
    (by decide)

/-- The completion date a `create` call stored, when it succeeded. -/
def storedDateOf : Except DbErr (CompletionRow × DB) → Option Int
  | .ok p => some p.1.completionDate
  | .error _ => none

/-- The concrete instant for the C7 counterexample: 03:00 UTC on epoch
day 20000 (so 22:00 the previous evening on a household clock five
hours behind UTC). -/
def c7Instant : Int := 20000 * 86400000 + 10800000

/-- A household-local clock five hours behind UTC (e.g. US Eastern
Standard Time), as a millisecond offset. -/
def c7Off : Int := -18000000

/-- Counterexample to claim C7 as stated: `Completion.create` derives
the stored completion date with `date.toISOString().split('T')[0]`,
which is the UTC calendar day. At `c7Instant`, on a household clock
five hours behind UTC, the local calendar day is 19999 but the stored
completion date is 20000 — the UTC day, not the household-local day
used by the Schedule Evaluator's local weekday computation. -/
theorem C7_counterexample :
    storedDateOf (createAtInstant 1 7 c7Instant c1InitDB) =
      some 20000 ∧
    deriveCompletionDate c7Instant = 20000 ∧
    localCalendarDay c7Instant c7Off = 19999 ∧
    deriveCompletionDate c7Instant ≠ localCalendarDay c7Instant c7Off
    := by decide

/-- Claim C7 as amended: for every instant passed to
`Completion.create`, the stored completion date is the UTC calendar
day of that instant (the `toISOString` day), and therefore differs
from the household-local calendar day whenever the local day and the
UTC day of the instant disagree — the opposite of the claimed
household-local convention. -/
theorem C7_completionDate_is_utc_day (s : DB) (t u : Nat)
    (tms offMs : Int) (c1 : CompletionRow) (s1 : DB)
    (hc : createAtInstant t u tms s = .ok (c1, s1)) :
    c1.completionDate = deriveCompletionDate tms ∧
    (localCalendarDay tms offMs ≠ deriveCompletionDate tms →
      c1.completionDate ≠ localCalendarDay tms offMs) := by
  by_cases hdup : hasDup t u (deriveCompletionDate tms) s = true
  · rw [show createAtInstant t u tms s =
      create t u (deriveCompletionDate tms) tms s from rfl,
      create_of_dup t u _ tms s hdup] at hc
    cases hc
  · rw [show createAtInstant t u tms s =
      create t u (deriveCompletionDate tms) tms s from rfl,
      create_of_nodup t u _ tms s (by simpa using hdup)] at hc
    have hc1 : c1 = newCompletion t u (deriveCompletionDate tms) tms s := by
      cases hc
      rfl
    constructor
    · rw [hc1]
      rfl
    · intro hne
      rw [hc1]
      show deriveCompletionDate tms ≠ localCalendarDay tms offMs
      exact fun hh => hne hh.symm

/-- Closed witness for the amended C7, at the counterexample instant:
the stored date is the UTC day 20000 and differs from the local day
19999. -/
theorem C7_completionDate_is_utc_day_witness :
    (newCompletion 1 7 20000 c7Instant c1InitDB).completionDate =
      deriveCompletionDate c7Instant ∧
    (localCalendarDay c7Instant c7Off ≠ deriveCompletionDate c7Instant →
      (newCompletion 1 7 20000 c7Instant c1InitDB).completionDate ≠
        localCalendarDay c7Instant c7Off) :=
  C7_completionDate_is_utc_day c1InitDB 1 7 c7Instant c7Off
    (newCompletion 1 7 20000 c7Instant c1InitDB)
    (updateBalance 1 7
      (insertedState 1 7 20000 c7Instant c1InitDB))
    (by rfl)

/-! ### Claim C5: successful undo -/

/-- Incrementing an existing balance row shifts the cached value. -/
theorem balVal_bupdate_of_isSome (u : Nat) (delta : Int) (s : DB)
    (h : (alookup u s.balances).isSome) :
    balVal u (updateBalanceQuery u delta s) = balVal u s + delta := by
  unfold balVal
  rw [updateBalanceQuery_balances, alookup_bupdate, if_pos rfl]
  cases hh : alookup u s.balances with
  | none => rw [hh] at h; simp at h
  | some b => rfl

/-- The credit-reversal block on a positively valued task is the
UPDATE / INSERT-transaction chain. -/
theorem undoCredit_of_task (c : CompletionRow) (s : DB) (task : Task)
    (ht : alookup c.taskId s.tasks = some task)
    (hv : 0 < task.dollarValue) :
    undoCredit c s =
      insertTxnQuery c.userId (-task.dollarValue) .adjustment
        ("Undone: " ++ task.name)
        (updateBalanceQuery c.userId (-task.dollarValue) s) := by
  unfold undoCredit
  rw [ht]
  show (if task.dollarValue > 0 then
      insertTxnQuery c.userId (-task.dollarValue) .adjustment
        ("Undone: " ++ task.name)
        (updateBalanceQuery c.userId (-task.dollarValue) s)
    else s) = _
  rw [if_pos hv]

/-- `undo` on a found, in-window completion reverses the credit and
deletes the row. -/
theorem undo_of_within (s : DB) (id : Nat) (now : Int)
    (c : CompletionRow) (hf : findById id s = some c)
    (hage : ¬ now - c.completedAt > UNDO_WINDOW_MS) :
    undo id now s =
      (.ok (), deleteCompletionQuery id (undoCredit c s)) := by
  unfold undo
  rw [hf]
  show (if now - c.completedAt > UNDO_WINDOW_MS then
      ((.error .expired : Except UndoErr Unit), s)
    else (.ok (), deleteCompletionQuery id (undoCredit c s))) = _
  rw [if_neg hage]

/-- The credit-reversal block is the identity when the task row is
missing. -/
theorem undoCredit_of_no_task (c : CompletionRow) (s : DB)
    (ht : alookup c.taskId s.tasks = none) : undoCredit c s = s := by
  unfold undoCredit
  rw [ht]

/-- The credit-reversal block is the identity when the dollar value is
not positive. -/
theorem undoCredit_of_nonpos (c : CompletionRow) (s : DB) (task : Task)
    (ht : alookup c.taskId s.tasks = some task)
    (hv : task.dollarValue ≤ 0) : undoCredit c s = s := by
  unfold undoCredit
  rw [ht]
  show (if task.dollarValue > 0 then
      insertTxnQuery c.userId (-task.dollarValue) .adjustment
        ("Undone: " ++ task.name)
        (updateBalanceQuery c.userId (-task.dollarValue) s)
    else s) = s
  rw [if_neg (by omega)]

/-- The credit-reversal block never touches the completions table. -/
theorem undoCredit_completions (c : CompletionRow) (s : DB) :
    (undoCredit c s).completions = s.completions := by
  unfold undoCredit
  cases alookup c.taskId s.tasks with
  | none => rfl
  | some task => by_cases hv : task.dollarValue > 0 <;> simp [hv]

/-- The credit-reversal block never touches the streaks table. -/
theorem undoCredit_streaks (c : CompletionRow) (s : DB) :
    (undoCredit c s).streaks = s.streaks := by
  unfold undoCredit
  cases alookup c.taskId s.tasks with
  | none => rfl
  | some task => by_cases hv : task.dollarValue > 0 <;> simp [hv]

/-- Claim C5: successful undo within the 5-minute window. First part:
for EVERY completion whose age is at most 5 minutes — whatever its
task's value, and even if the task row is gone — `Completion.undo`
succeeds, deletes exactly that completion row, and leaves the streak
state of every (user, routine) pair unchanged; when the task exists
with monetary value > 0 it appends exactly one `adjustment` transaction
whose amount is the negation of the value (offsetting the prior
`earned` credit) and decrements the user's cached balance by the value,
and when the task is missing or its value is ≤ 0 it leaves the
transaction log and the balances untouched. Second part: composed with
the `create` that produced the completion, an in-window undo restores
the completions table and the user's cached balance to their pre-create
values (the adjustment exactly offsets the credit). -/
theorem C5_undo_within_window :
    (∀ (s : DB) (id : Nat) (now : Int) (c : CompletionRow),
      findById id s = some c →
      now - c.completedAt ≤ UNDO_WINDOW_MS →
      (undo id now s).1 = .ok () ∧
      (undo id now s).2.completions =
        s.completions.filter (fun x => decide (¬ x.id = id)) ∧
      (undo id now s).2.streaks = s.streaks ∧
      (∀ task, alookup c.taskId s.tasks = some task →
        0 < task.dollarValue →
        (undo id now s).2.txns = s.txns ++
          [{ userId := c.userId, amount := -task.dollarValue
             type := .adjustment
             description := "Undone: " ++ task.name }] ∧
        ((alookup c.userId s.balances).isSome →
          balVal c.userId (undo id now s).2 =
            balVal c.userId s - task.dollarValue)) ∧
      (alookup c.taskId s.tasks = none →
        (undo id now s).2.txns = s.txns ∧
        (undo id now s).2.balances = s.balances) ∧
      (∀ task, alookup c.taskId s.tasks = some task →
        task.dollarValue ≤ 0 →
        (undo id now s).2.txns = s.txns ∧
        (undo id now s).2.balances = s.balances)) ∧
    (∀ (s : DB) (t u : Nat) (d now1 now2 : Int) (task : Task)
      (c1 : CompletionRow) (s1 : DB),
      alookup t s.tasks = some task → 0 < task.dollarValue →
      (∀ c ∈ s.completions, c.id ≠ s.nextId) →
      create t u d now1 s = .ok (c1, s1) →
      now2 - now1 ≤ UNDO_WINDOW_MS →
      (undo c1.id now2 s1).1 = .ok () ∧
      (undo c1.id now2 s1).2.completions = s.completions ∧
      (undo c1.id now2 s1).2.txns = s1.txns ++
        [{ userId := u, amount := -task.dollarValue
           type := .adjustment
           description := "Undone: " ++ task.name }] ∧
      balVal u (undo c1.id now2 s1).2 = balVal u s ∧
      (undo c1.id now2 s1).2.streaks = s.streaks) := by
  constructor
  · intro s id now c hf hage
    have hundo := undo_of_within s id now c hf (by omega)
    refine ⟨?_, ?_, ?_, ?_, ?_, ?_⟩
    · rw [hundo]
    · rw [hundo, deleteCompletion_completions, undoCredit_completions]
    · rw [hundo, deleteCompletion_streaks, undoCredit_streaks]
    · intro task htask hv
      have hcredit := undoCredit_of_task c s task htask hv
      constructor
      · rw [hundo, hcredit]
        rfl
      · intro hrow
        rw [hundo, hcredit]
        show balVal c.userId (updateBalanceQuery c.userId
          (-task.dollarValue) s) = balVal c.userId s - task.dollarValue
        rw [balVal_bupdate_of_isSome c.userId (-task.dollarValue) s
          hrow]
        omega
    · intro htnone
      rw [hundo, undoCredit_of_no_task c s htnone]
      exact ⟨rfl, rfl⟩
    · intro task htask hv
      rw [hundo, undoCredit_of_nonpos c s task htask hv]
      exact ⟨rfl, rfl⟩
  · intro s t u d now1 now2 task c1 s1 ht hv hfresh hc hage
    have hdup : hasDup t u d s = false := by
      by_contra hh
      rw [create_of_dup t u d now1 s (by simpa using hh)] at hc
      cases hc
    rw [create_of_nodup t u d now1 s hdup] at hc
    simp only [Except.ok.injEq, Prod.mk.injEq] at hc
    obtain ⟨hc1, hs1⟩ := hc
    subst hc1
    subst hs1
    have htI : alookup t (insertedState t u d now1 s).tasks =
        some task := ht
    have hcomp : (updateBalance t u
        (insertedState t u d now1 s)).completions =
        s.completions ++ [newCompletion t u d now1 s] := by
      rw [updateBalance_completions]
      rfl
    have hfind : findById (newCompletion t u d now1 s).id
        (updateBalance t u (insertedState t u d now1 s)) =
        some (newCompletion t u d now1 s) := by
      unfold findById
      rw [hcomp, List.find?_append]
      have h1 : s.completions.find?
          (fun c => decide (c.id = (newCompletion t u d now1 s).id)) =
          none := by
        rw [List.find?_eq_none]
        intro c hcmem
        simpa [newCompletion] using hfresh c hcmem
      rw [h1]
      simp
    have hb := updateBalance_balVal_self t u
      (insertedState t u d now1 s) task htI hv
    have hundo := undo_of_within _ (newCompletion t u d now1 s).id now2
      (newCompletion t u d now1 s) hfind
      (by
        show ¬ now2 - now1 > UNDO_WINDOW_MS
        omega)
    have hcredit := undoCredit_of_task (newCompletion t u d now1 s)
      (updateBalance t u (insertedState t u d now1 s)) task
      (by rw [updateBalance_tasks]; exact ht) hv
    refine ⟨?_, ?_, ?_, ?_, ?_⟩
    · rw [hundo]
    · rw [hundo, hcredit]
      show ((updateBalance t u
          (insertedState t u d now1 s)).completions.filter
        (fun c =>
          decide (¬ c.id = (newCompletion t u d now1 s).id))) = _
      rw [hcomp, List.filter_append]
      have h1 : s.completions.filter
          (fun c =>
            decide (¬ c.id = (newCompletion t u d now1 s).id)) =
          s.completions := by
        rw [List.filter_eq_self]
        intro c hcmem
        simpa [newCompletion] using hfresh c hcmem
      rw [h1]
      simp [newCompletion]
    · rw [hundo, hcredit]
      rfl
    · rw [hundo, hcredit]
      have hiso : (alookup u (updateBalance t u
          (insertedState t u d now1 s)).balances).isSome := hb.2
      have h2 : balVal u (updateBalanceQuery u (-task.dollarValue)
          (updateBalance t u (insertedState t u d now1 s))) =
          balVal u (updateBalance t u (insertedState t u d now1 s)) +
            (-task.dollarValue) :=
        balVal_bupdate_of_isSome u (-task.dollarValue) _ hiso
      show balVal u (updateBalanceQuery u (-task.dollarValue)
        (updateBalance t u (insertedState t u d now1 s))) = balVal u s
      rw [h2, hb.1]
      have h3 : balVal u (insertedState t u d now1 s) = balVal u s :=
        rfl
      rw [h3]
      omega
    · rw [hundo, hcredit]
      show (updateBalance t u (insertedState t u d now1 s)).streaks = _
      rw [updateBalance_streaks]
      rfl

/-- The state after `create(task 1, user 7, day 30)` succeeded in
`c1InitDB`: the completion row, the credited balance and the `earned`
transaction. -/
def c5S1 : DB :=
  { tasks := [(1, { dollarValue := 200, name := "Trash" })]
    completions := [{ id := 0, taskId := 1, userId := 7
                      completedAt := 0, completionDate := 30 }]
    balances := [(7, 200)]
    txns := [{ userId := 7, amount := 200, type := .earned
               description := "Completed: Trash" }]
    streaks := []
    nextId := 1 }

/-- A database with a zero-value task (the schema default
`dollar_value DECIMAL DEFAULT 0`, i.e. an ordinary routine task), an
in-window completion of it, and a streak row. -/
def c5ZeroDB : DB :=
  { tasks := [(2, { dollarValue := 0, name := "Tidy" })]
    completions := [{ id := 3, taskId := 2, userId := 7
                      completedAt := 0, completionDate := 30 }]
    balances := []
    txns := []
    streaks := [((7, 1), { currentCount := 1, bestCount := 1
                           lastCompletionDate := some 30 })]
    nextId := 4 }

/-- Closed witness for C5, exercising both parts: undoing the
zero-value completion in `c5ZeroDB` one minute in succeeds, deletes the
row, and leaves streaks, the transaction log and the balances
untouched; and undoing one minute after the create in `c1InitDB`
succeeds, empties the completions table, appends the offsetting
adjustment and restores the balance. -/
theorem C5_undo_within_window_witness :
    ((undo 3 60000 c5ZeroDB).1 = .ok () ∧
     (undo 3 60000 c5ZeroDB).2.completions =
       c5ZeroDB.completions.filter (fun x => decide (¬ x.id = 3)) ∧
     (undo 3 60000 c5ZeroDB).2.streaks = c5ZeroDB.streaks ∧
     (undo 3 60000 c5ZeroDB).2.txns = c5ZeroDB.txns ∧
     (undo 3 60000 c5ZeroDB).2.balances = c5ZeroDB.balances) ∧
    ((undo 0 60000 c5S1).1 = .ok () ∧
     (undo 0 60000 c5S1).2.completions = c1InitDB.completions ∧
     (undo 0 60000 c5S1).2.txns = c5S1.txns ++
       [{ userId := 7, amount := -200, type := .adjustment
          description := "Undone: " ++ "Trash" }] ∧
     balVal 7 (undo 0 60000 c5S1).2 = balVal 7 c1InitDB ∧
     (undo 0 60000 c5S1).2.streaks = c1InitDB.streaks) := by
  have h := C5_undo_within_window.1 c5ZeroDB 3 60000
    { id := 3, taskId := 2, userId := 7
      completedAt := 0, completionDate := 30 } (by decide) (by decide)
  have hz := h.2.2.2.2.2 { dollarValue := 0, name := "Tidy" }
    (by decide) (by decide)
  exact ⟨⟨h.1, h.2.1, h.2.2.1, hz.1, hz.2⟩,
    C5_undo_within_window.2 c1InitDB 1 7 30 0 60000
      { dollarValue := 200, name := "Trash" }
      { id := 0, taskId := 1, userId := 7
        completedAt := 0, completionDate := 30 }
      c5S1 (by decide) (by decide) (by decide) (by rfl) (by decide)⟩

/-! ### Claim C2: the reconciliation invariant -/

/-- The core operations quantified over by claim C2. -/
inductive Op
  | createOp (t u : Nat) (d now : Int)
  | updateBalanceOp (t u : Nat)
  | undoOp (id : Nat) (now : Int)
  | getBalanceOp (u : Nat)

/-- Running one core operation for its state effect (a failed `create`
raises before any further query, leaving the state unchanged; `undo`
failures return the unchanged state). -/
def applyOp (o : Op) (s : DB) : DB :=
  match o with
  | .createOp t u d now =>
    match create t u d now s with
    | .ok p => p.2
    | .error _ => s
  | .updateBalanceOp t u => updateBalance t u s
  | .undoOp id now => (undo id now s).2
  | .getBalanceOp u => (getBalance u s).2

/-- Running a sequence of core operations. -/
def run (ops : List Op) (s : DB) : DB :=
  ops.foldl (fun s o => applyOp o s) s

/-- The empty core state over a fixed tasks table (tasks are created by
the external task editor, not by the core operations, which never write
to the tasks table). -/
def initDB (tasks : List (Nat × Task)) : DB :=
  { tasks := tasks, completions := [], balances := [], txns := []
    streaks := [], nextId := 0 }

/-- The reconciliation property: every user's cached balance (0 when
the row is absent) equals the sum of their transaction amounts. -/
def BalOk (s : DB) : Prop := ∀ u, balVal u s = txnSum u s

/-- Every persisted completion of a positively valued task is backed by
a balance row for its user (so a later undo's balance UPDATE cannot
silently miss). -/
def Covered (s : DB) : Prop :=
  ∀ c ∈ s.completions, ∀ task, alookup c.taskId s.tasks = some task →
    0 < task.dollarValue → (alookup c.userId s.balances).isSome

/-- The inductive invariant for claim C2. -/
def Inv (s : DB) : Prop := BalOk s ∧ Covered s

/-- The ensure-INSERT never changes any cached balance value. -/
theorem balVal_ensure (u v : Nat) (s : DB) :
    balVal v (ensureBalanceQuery u s) = balVal v s := by
  unfold balVal
  rw [alookup_ensure]
  by_cases hv : v = u
  · rw [if_pos hv, hv]
    rfl
  · rw [if_neg hv]

/-- The ensure-INSERT preserves existing balance rows. -/
theorem isSome_ensure (u v : Nat) (s : DB)
    (h : (alookup v s.balances).isSome) :
    (alookup v (ensureBalanceQuery u s).balances).isSome := by
  rw [alookup_ensure]
  by_cases hv : v = u
  · rw [if_pos hv]
    rfl
  · rw [if_neg hv]
    exact h

/-- The ensure-INSERT establishes its own row. -/
theorem isSome_ensure_self (u : Nat) (s : DB) :
    (alookup u (ensureBalanceQuery u s).balances).isSome := by
  rw [alookup_ensure, if_pos rfl]
  rfl

/-- The balance UPDATE preserves row existence. -/
theorem isSome_alookup_bupdate (u v : Nat) (delta : Int)
    (l : List (Nat × Int)) (h : (alookup v l).isSome) :
    (alookup v (bupdate u delta l)).isSome := by
  rw [alookup_bupdate]
  by_cases hv : v = u
  · rw [if_pos hv]
    cases hh : alookup v l with
    | none => rw [hh] at h; simp at h
    | some b => simp [hh]
  · rw [if_neg hv]
    exact h

/-- The balance UPDATE leaves other users' cached values alone. -/
theorem balVal_bupdate_ne (u v : Nat) (delta : Int) (s : DB)
    (hv : v ≠ u) :
    balVal v (updateBalanceQuery u delta s) = balVal v s := by
  unfold balVal
  rw [updateBalanceQuery_balances, alookup_bupdate, if_neg hv]

/-- Appending a transaction adds its amount to exactly its user's
reconciliation sum. -/
theorem txnSum_insertTxn (v u : Nat) (a : Int) (ty : TxnType)
    (dsc : String) (s : DB) :
    txnSum v (insertTxnQuery u a ty dsc s) =
      txnSum v s + (if u = v then a else 0) := by
  unfold txnSum
  rw [insertTxn_txns, txnSumL_append, txnSumL_single]

/-- `updateBalance` preserves balance-row existence. -/
theorem isSome_updateBalance (t u v : Nat) (s : DB)
    (h : (alookup v s.balances).isSome) :
    (alookup v (updateBalance t u s).balances).isSome := by
  cases htask : alookup t s.tasks with
  | none => rw [updateBalance_of_no_task t u s htask]; exact h
  | some task =>
    by_cases hv2 : task.dollarValue ≤ 0
    · rw [updateBalance_of_nonpos t u s task htask hv2]; exact h
    · rw [updateBalance_of_task t u s task htask (by omega)]
      show (alookup v (bupdate u task.dollarValue
        (ensureBalanceQuery u s).balances)).isSome
      exact isSome_alookup_bupdate _ _ _ _ (isSome_ensure u v s h)

/-- `updateBalance` preserves the reconciliation property: when it
credits, both the cached balance and the transaction sum of the
credited user grow by the same amount. -/
theorem balOk_updateBalance (t u : Nat) (s : DB) (h : BalOk s) :
    BalOk (updateBalance t u s) := by
  cases htask : alookup t s.tasks with
  | none => rw [updateBalance_of_no_task t u s htask]; exact h
  | some task =>
    by_cases hv2 : task.dollarValue ≤ 0
    · rw [updateBalance_of_nonpos t u s task htask hv2]; exact h
    · rw [updateBalance_of_task t u s task htask (by omega)]
      intro v
      have hbal : balVal v (insertTxnQuery u task.dollarValue .earned
          ("Completed: " ++ task.name)
          (updateBalanceQuery u task.dollarValue
            (ensureBalanceQuery u s))) =
          balVal v (updateBalanceQuery u task.dollarValue
            (ensureBalanceQuery u s)) := rfl
      rw [hbal, txnSum_insertTxn]
      have htx : txnSum v (updateBalanceQuery u task.dollarValue
          (ensureBalanceQuery u s)) = txnSum v s := by
        unfold txnSum
        rw [updateBalanceQuery_txns, ensureBalance_txns]
      rw [htx]
      by_cases hvu : v = u
      · subst hvu
        rw [balVal_bupdate_of_isSome v task.dollarValue _
          (isSome_ensure_self v s), balVal_ensure, h v, if_pos rfl]
      · rw [balVal_bupdate_ne u v _ _ hvu, balVal_ensure, h v,
          if_neg (fun hh => hvu hh.symm)]
        omega

/-- `updateBalance` preserves coverage (it never removes completions,
tasks or balance rows). -/
theorem covered_updateBalance (t u : Nat) (s : DB) (h : Covered s) :
    Covered (updateBalance t u s) := by
  intro c hcmem task htask hv
  rw [updateBalance_completions] at hcmem
  rw [updateBalance_tasks] at htask
  exact isSome_updateBalance t u c.userId s (h c hcmem task htask hv)

/-- Core-operation invariance: `create` (including the conflict case,
which changes nothing). -/
theorem inv_create (t u : Nat) (d now : Int) (s : DB) (h : Inv s) :
    Inv (applyOp (.createOp t u d now) s) := by
  show Inv (match create t u d now s with
    | .ok p => p.2
    | .error _ => s)
  by_cases hdup : hasDup t u d s = true
  · rw [create_of_dup t u d now s hdup]
    exact h
  · rw [create_of_nodup t u d now s (by simpa using hdup)]
    show Inv (updateBalance t u (insertedState t u d now s))
    constructor
    · exact balOk_updateBalance t u _ (fun v => h.1 v)
    · intro c hcmem task htask hv
      rw [updateBalance_completions] at hcmem
      rw [updateBalance_tasks] at htask
      have hcmem' : c ∈ s.completions ++ [newCompletion t u d now s] :=
        hcmem
      rcases List.mem_append.mp hcmem' with hold | hnew
      · exact isSome_updateBalance t u c.userId
          (insertedState t u d now s)
          (h.2 c hold task htask hv)
      · have hc : c = newCompletion t u d now s :=
          List.mem_singleton.mp hnew
        subst hc
        exact (updateBalance_balVal_self t u
          (insertedState t u d now s) task htask hv).2

/-- Core-operation invariance: `undo` (failures change nothing; a
successful undo debits a row that coverage guarantees to exist and
appends the offsetting transaction). -/
theorem inv_undo (id : Nat) (now : Int) (s : DB) (h : Inv s) :
    Inv ((undo id now s).2) := by
  unfold undo
  cases hf : findById id s with
  | none => exact h
  | some c =>
    show Inv ((if now - c.completedAt > UNDO_WINDOW_MS then
        ((Except.error UndoErr.expired : Except UndoErr Unit), s)
      else (Except.ok (), deleteCompletionQuery id (undoCredit c s))).2)
    by_cases hage : now - c.completedAt > UNDO_WINDOW_MS
    · rw [if_pos hage]
      exact h
    · rw [if_neg hage]
      show Inv (deleteCompletionQuery id (undoCredit c s))
      have hcmem : c ∈ s.completions := List.mem_of_find?_eq_some hf
      cases htask : alookup c.taskId s.tasks with
      | none =>
        rw [undoCredit_of_no_task c s htask]
        refine ⟨fun v => h.1 v, ?_⟩
        intro c' hc' task' ht' hv'
        exact h.2 c' (List.mem_of_mem_filter hc') task' ht' hv'
      | some task =>
        by_cases hv2 : task.dollarValue ≤ 0
        · rw [undoCredit_of_nonpos c s task htask hv2]
          refine ⟨fun v => h.1 v, ?_⟩
          intro c' hc' task' ht' hv'
          exact h.2 c' (List.mem_of_mem_filter hc') task' ht' hv'
        · rw [undoCredit_of_task c s task htask (by omega)]
          have hrow : (alookup c.userId s.balances).isSome :=
            h.2 c hcmem task htask (by omega)
          constructor
          · intro v
            have hbal : balVal v (deleteCompletionQuery id
                (insertTxnQuery c.userId (-task.dollarValue)
                  .adjustment ("Undone: " ++ task.name)
                  (updateBalanceQuery c.userId (-task.dollarValue)
                    s))) =
                balVal v (updateBalanceQuery c.userId
                  (-task.dollarValue) s) := rfl
            have htx : txnSum v (deleteCompletionQuery id
                (insertTxnQuery c.userId (-task.dollarValue)
                  .adjustment ("Undone: " ++ task.name)
                  (updateBalanceQuery c.userId (-task.dollarValue)
                    s))) =
                txnSum v (insertTxnQuery c.userId (-task.dollarValue)
                  .adjustment ("Undone: " ++ task.name)
                  (updateBalanceQuery c.userId (-task.dollarValue)
                    s)) := rfl
            rw [hbal, htx, txnSum_insertTxn]
            have htx2 : txnSum v (updateBalanceQuery c.userId
                (-task.dollarValue) s) = txnSum v s := rfl
            rw [htx2]
            by_cases hvu : v = c.userId
            · subst hvu
              rw [balVal_bupdate_of_isSome c.userId
                (-task.dollarValue) s hrow, h.1 c.userId, if_pos rfl]
            · rw [balVal_bupdate_ne c.userId v _ _ hvu, h.1 v,
                if_neg (fun hh => hvu hh.symm)]
              omega
          · intro c' hc' task' ht' hv'
            have hc'' : c' ∈ s.completions :=
              List.mem_of_mem_filter hc'
            exact isSome_alookup_bupdate c.userId c'.userId _ _
              (h.2 c' hc'' task' ht' hv')

/-- Core-operation invariance: `getBalance` (the lazy zero row keeps
both sides at 0). -/
theorem inv_getBalance (u : Nat) (s : DB) (h : Inv s) :
    Inv ((getBalance u s).2) := by
  show Inv (ensureBalanceQuery u s)
  constructor
  · intro v
    rw [balVal_ensure]
    have htx : txnSum v (ensureBalanceQuery u s) = txnSum v s := by
      unfold txnSum
      rw [ensureBalance_txns]
    rw [htx]
    exact h.1 v
  · intro c hcmem task htask hv
    rw [ensureBalance_completions] at hcmem
    rw [ensureBalance_tasks] at htask
    exact isSome_ensure u c.userId s (h.2 c hcmem task htask hv)

/-- Every core operation preserves the invariant. -/
theorem inv_applyOp (o : Op) (s : DB) (h : Inv s) : Inv (applyOp o s) := by
  cases o with
  | createOp t u d now => exact inv_create t u d now s h
  | updateBalanceOp t u =>
    exact ⟨balOk_updateBalance t u s h.1, covered_updateBalance t u s h.2⟩
  | undoOp id now => exact inv_undo id now s h
  | getBalanceOp u => exact inv_getBalance u s h

/-- The invariant holds after any sequence of core operations. -/
theorem inv_run (ops : List Op) (s : DB) (h : Inv s) : Inv (run ops s) := by
  induction ops generalizing s with
  | nil => exact h
  | cons o ops ih => exact ih _ (inv_applyOp o s h)

/-- Claim C2: the reconciliation invariant. For every fixed tasks
table, every sequence of core operations (`create`, `updateBalance`,
`undo`, `getBalance`) run from the empty core state, and every user
whose balance row exists, the cached `current_balance` equals the sum
of all `balance_transactions.amount` rows of that user. -/
theorem C2_reconciliation_invariant (tasks : List (Nat × Task))
    (ops : List Op) (u : Nat) (b : Int)
    (hb : alookup u (run ops (initDB tasks)).balances = some b) :
    b = txnSum u (run ops (initDB tasks)) := by
  have hinv := inv_run ops (initDB tasks)
    ⟨fun v => rfl, fun c hc => absurd hc (by simp [initDB])⟩
  have hbal := hinv.1 u
  unfold balVal at hbal
  rw [hb] at hbal
  exact hbal

/-- Closed witness for C2: create (credit 200), read the balance, undo
(debit 200), create again the next day (credit 200); the cached balance
is 200 and so is the transaction sum. -/
theorem C2_reconciliation_invariant_witness :
    alookup 7 (run
      [.createOp 1 7 30 0, .getBalanceOp 7, .undoOp 0 60000,
       .createOp 1 7 31 100000]
      (initDB [(1, { dollarValue := 200, name := "Trash" })])).balances =
      some 200 ∧
    200 = txnSum 7 (run
      [.createOp 1 7 30 0, .getBalanceOp 7, .undoOp 0 60000,
       .createOp 1 7 31 100000]
      (initDB [(1, { dollarValue := 200, name := "Trash" })])) :=
  ⟨by decide,
   C2_reconciliation_invariant
     [(1, { dollarValue := 200, name := "Trash" })]
     [.createOp 1 7 30 0, .getBalanceOp 7, .undoOp 0 60000,
      .createOp 1 7 31 100000] 7 200 (by decide)⟩

end Chores
